import Mathlib

/-!
# Verification of the stonks-ai order/position lifecycle engine

Shallow embedding of the core of the `stonks-ai` repository:

* `src/utils/time_utils.py` — session clock (`get_session_phase`,
  `minutes_to_close`, `minutes_to_exit_deadline`);
* `src/analysis/risk.py` — risk engine (`calculate_position_size`,
  `calculate_targets`);
* `src/execution/order_types.py` — `Order`, `Fill`, `Position` data model,
  `Order.add_fill`, `Order.from_suggestion`, `Position.from_filled_order`;
* `src/execution/order_manager.py` — `OrderManager` lifecycle operations;
* `src/execution/position_tracker.py` — forced-exit pass
  (`_execute_auto_exit`, `close_position_market`).

Conventions of the embedding:

* Python `float` prices are modelled as exact rationals `ℚ`; Python `int`
  quantities as `Int`.  Python `int(x)` (truncation towards zero) is `pyInt`.
* Wall-clock instants are modelled by their Eastern-time second-of-day
  (a `Nat`); the session-boundary settings of `src/config/settings.py`
  are fixed string constants `"09:30"`, `"11:00"`, `"13:30"`, `"15:30"`,
  `"16:00"`, `"15:45"`, embedded as second-of-day constants.
* The `uuid4`-generated identifiers are modelled by a fresh-id counter
  `nextId` threaded through the `OrderManager` state; Python `dict`
  stores (which preserve insertion order) are association lists with
  insert-at-end and in-place value replacement.
* Timestamp bookkeeping fields (`created_at`, `updated_at`, …) and log
  output are omitted: no claim mentions them.
-/

/-! ## Session clock (`src/utils/time_utils.py`) -/

/-- Session phases, from `time_utils.SessionPhase`. -/
inductive SessionPhase where
  | pre_market
  | prime_time
  | lunch_doldrums
  | mid_session
  | danger_zone
  | after_hours
deriving DecidableEq, Repr

/-- `Settings.market_open = "09:30"` as a second of the day. -/
def marketOpenSec : Nat := 9 * 3600 + 30 * 60

/-- `Settings.prime_time_end = "11:00"` as a second of the day. -/
def primeTimeEndSec : Nat := 11 * 3600

/-- `Settings.lunch_end = "13:30"` as a second of the day. -/
def lunchEndSec : Nat := 13 * 3600 + 30 * 60

/-- `Settings.danger_zone_start = "15:30"` as a second of the day. -/
def dangerZoneStartSec : Nat := 15 * 3600 + 30 * 60

/-- `Settings.market_close = "16:00"` as a second of the day. -/
def marketCloseSec : Nat := 16 * 3600

/-- `Settings.exit_deadline = "15:45"` as a second of the day. -/
def exitDeadlineSec : Nat := 15 * 3600 + 45 * 60

/-- `time_utils.get_session_phase`: the chained strict comparisons of the
Eastern time of day `t` (in seconds since midnight) against the configured
boundaries. -/
def get_session_phase (t : Nat) : SessionPhase :=
  if t < marketOpenSec then SessionPhase.pre_market
  else if t < primeTimeEndSec then SessionPhase.prime_time
  else if t < lunchEndSec then SessionPhase.lunch_doldrums
  else if t < dangerZoneStartSec then SessionPhase.mid_session
  else if t < marketCloseSec then SessionPhase.danger_zone
  else SessionPhase.after_hours

/-- `time_utils.minutes_to_close`: zero at or after 16:00 Eastern, otherwise
the whole minutes (floored) remaining until 16:00. -/
def minutes_to_close (t : Nat) : Nat :=
  if marketCloseSec ≤ t then 0 else (marketCloseSec - t) / 60

/-- `time_utils.minutes_to_exit_deadline`: zero at or after 15:45 Eastern,
otherwise the whole minutes (floored) remaining until 15:45. -/
def minutes_to_exit_deadline (t : Nat) : Nat :=
  if exitDeadlineSec ≤ t then 0 else (exitDeadlineSec - t) / 60

/-! ## Risk engine (`src/analysis/risk.py`) -/

/-- Python `int(x)` conversion: truncation towards zero. -/
def pyInt (q : ℚ) : Int :=
  if q < 0 then -(Int.floor (-q)) else Int.floor q

/-- `RiskCalculator.calculate_position_size`: returns `1` on a non-positive
max loss per contract, otherwise `max(1, int(max_risk / max_loss))` with
`max_risk = account_size * max_risk_per_trade`. -/
def calculate_position_size (max_risk_per_trade account_size max_loss_per_contract : ℚ) :
    Int :=
  let max_risk := account_size * max_risk_per_trade
  if max_loss_per_contract ≤ 0 then 1
  else max 1 (pyInt (max_risk / max_loss_per_contract))

/-- `RiskCalculator.calculate_targets`: the credit-spread branch is taken only
when `is_credit_spread` is true AND `credit_received` is truthy (present and
non-zero); otherwise the long-option pair. -/
def calculate_targets (entry_price : ℚ) (is_credit_spread : Bool)
    (credit_received : Option ℚ) : ℚ × ℚ :=
  match is_credit_spread, credit_received with
  | true, some c =>
      if c ≠ 0 then (entry_price - c * 0.55, entry_price + c * 1.25)
      else (entry_price * 1.45, entry_price * 0.73)
  | _, _ => (entry_price * 1.45, entry_price * 0.73)

/-! ## Order and position data model (`src/execution/order_types.py`) -/

/-- `options.OptionType`. -/
inductive OptionType where
  | call
  | put
deriving DecidableEq, Repr

/-- `suggestions.TradeType`. -/
inductive TradeType where
  | long_call
  | long_put
  | call_debit_spread
  | put_debit_spread
  | call_credit_spread
  | put_credit_spread
deriving DecidableEq, Repr

/-- `order_types.OrderSide`. -/
inductive OrderSide where
  | buy
  | sell
deriving DecidableEq, Repr

/-- `order_types.OrderType`. -/
inductive OrderType where
  | market
  | limit
  | stop
  | stop_limit
deriving DecidableEq, Repr

/-- `order_types.OrderStatus`. -/
inductive OrderStatus where
  | pending_approval
  | approved
  | submitted
  | partial_fill
  | filled
  | cancelled
  | rejected
  | expired
deriving DecidableEq, Repr

/-- `order_types.PositionStatus` (`open` is a Lean keyword, hence `open_`;
the Python tracker assigns the raw string `"closing"`, which compares equal
to `PositionStatus.CLOSING` because the enum derives from `str`). -/
inductive PositionStatus where
  | open_
  | closed
  | closing
deriving DecidableEq, Repr

/-- `order_types.Fill`.  The bookkeeping fields `fill_id`, `filled_at` and
`broker_fill_id` are read by no operation and are omitted. -/
structure Fill where
  order_id : Nat
  quantity : Int
  price : ℚ
  commission : ℚ := 0
deriving DecidableEq, Repr

/-- `order_types.Order`.  `uuid4` ids are `Nat`; timestamp fields are
omitted (read by no operation). -/
structure Order where
  option_code : String
  strike : ℚ
  option_type : OptionType
  trade_type : TradeType
  side : OrderSide
  quantity : Int
  order_id : Nat
  suggestion_id : Option Nat := none
  underlying : String := "SPX"
  order_type : OrderType := OrderType.limit
  limit_price : Option ℚ := none
  stop_price : Option ℚ := none
  target_price : Option ℚ := none
  stop_loss_price : Option ℚ := none
  status : OrderStatus := OrderStatus.pending_approval
  status_reason : Option String := none
  filled_quantity : Int := 0
  avg_fill_price : Option ℚ := none
  fills : List Fill := []
  broker_order_id : Option Nat := none
  parent_order_id : Option Nat := none
  stop_order_id : Option Nat := none
  target_order_id : Option Nat := none
deriving DecidableEq, Repr

/-- `Order.is_filled`. -/
def Order.is_filled (o : Order) : Bool :=
  o.status == OrderStatus.filled

/-- `Order.is_active`. -/
def Order.is_active (o : Order) : Bool :=
  o.status == OrderStatus.pending_approval || o.status == OrderStatus.approved ||
    o.status == OrderStatus.submitted || o.status == OrderStatus.partial_fill

/-- `Order.remaining_quantity`. -/
def Order.remaining_quantity (o : Order) : Int :=
  o.quantity - o.filled_quantity

/-- `Order.add_fill`: append the fill, bump `filled_quantity`, recompute the
volume-weighted `avg_fill_price` over the fills list, and move the status to
`FILLED` when `filled_quantity >= quantity`, else to `PARTIAL_FILL` when
`filled_quantity > 0`. -/
def Order.add_fill (o : Order) (f : Fill) : Order :=
  let fills := o.fills ++ [f]
  let filled_quantity := o.filled_quantity + f.quantity
  let total_cost := (fills.map (fun g => g.price * (g.quantity : ℚ))).sum
  let total_qty := (fills.map Fill.quantity).sum
  let avg_fill_price :=
    if 0 < total_qty then some (total_cost / (total_qty : ℚ)) else none
  let status :=
    if o.quantity ≤ filled_quantity then OrderStatus.filled
    else if 0 < filled_quantity then OrderStatus.partial_fill
    else o.status
  { o with fills := fills, filled_quantity := filled_quantity,
           avg_fill_price := avg_fill_price, status := status }

/-- `options.OptionContract`, restricted to the fields `Order.from_suggestion`
reads. -/
structure OptionContract where
  code : String
  underlying : String := "SPX"
  strike_price : ℚ
  option_type : OptionType
deriving DecidableEq, Repr

/-- `suggestions.TradeSuggestion`, restricted to the fields
`Order.from_suggestion` reads. -/
structure TradeSuggestion where
  id : Nat
  trade_type : TradeType
  contracts : List OptionContract
  quantity : Int
  entry_price : ℚ
  target_price : ℚ
  stop_loss : ℚ
deriving DecidableEq, Repr

/-- `Order.from_suggestion`: `none` models the raised
`ValueError("Suggestion has no contracts")`; otherwise the BUY limit order
derived from the first contract.  `oid` is the fresh `uuid4` id. -/
def Order.from_suggestion (s : TradeSuggestion) (oid : Nat) : Option Order :=
  match s.contracts with
  | [] => none
  | contract :: _ =>
      some { suggestion_id := some s.id,
             option_code := contract.code,
             underlying := contract.underlying,
             strike := contract.strike_price,
             option_type := contract.option_type,
             trade_type := s.trade_type,
             side := OrderSide.buy,
             order_type := OrderType.limit,
             quantity := s.quantity,
             limit_price := some s.entry_price,
             target_price := some s.target_price,
             stop_loss_price := some s.stop_loss,
             order_id := oid }

/-- `order_types.Position`.  `uuid4` ids are `Nat`; timestamp fields are
omitted (read by no operation). -/
structure Position where
  option_code : String
  strike : ℚ
  option_type : OptionType
  trade_type : TradeType
  quantity : Int
  entry_price : ℚ
  entry_order_id : Nat
  position_id : Nat
  underlying : String := "SPX"
  status : PositionStatus := PositionStatus.open_
  target_price : Option ℚ := none
  stop_loss_price : Option ℚ := none
  exit_price : Option ℚ := none
  exit_order_id : Option Nat := none
  stop_order_id : Option Nat := none
  target_order_id : Option Nat := none
  suggestion_id : Option Nat := none
deriving DecidableEq, Repr

/-- `Position.is_open`. -/
def Position.is_open (p : Position) : Bool :=
  p.status == PositionStatus.open_

/-- `Position.from_filled_order`: `none` models the raised
`ValueError("Order must be filled")`.  `pid` is the fresh `uuid4` id. -/
def Position.from_filled_order (o : Order) (pid : Nat) : Option Position :=
  if o.is_filled then
    match o.avg_fill_price with
    | some avg =>
        some { option_code := o.option_code,
               underlying := o.underlying,
               strike := o.strike,
               option_type := o.option_type,
               trade_type := o.trade_type,
               quantity := o.filled_quantity,
               entry_price := avg,
               entry_order_id := o.order_id,
               target_price := o.target_price,
               stop_loss_price := o.stop_loss_price,
               suggestion_id := o.suggestion_id,
               position_id := pid }
    | none => none
  else none

/-- `Position.close`: set the exit fields and move to `CLOSED`. -/
def Position.close (p : Position) (exit_price : ℚ) (exit_oid : Nat) : Position :=
  { p with exit_price := some exit_price, exit_order_id := some exit_oid,
           status := PositionStatus.closed }

/-! ## The in-memory stores

Python `dict[str, ...]` stores keyed by `uuid4` ids, embedded as association
lists: `dict.get` is `alGet`, assignment to an existing key is the in-place
`alSet`, assignment to a fresh key appends at the end (Python dicts preserve
insertion order). -/

/-- `dict.get`: the value at the first occurrence of key `k`. -/
def alGet {α : Type} (k : Nat) : List (Nat × α) → Option α
  | [] => none
  | (k', v) :: rest => if k' = k then some v else alGet k rest

/-- Assignment to an existing key: replace the value at the first occurrence
of `k`, keeping its place. -/
def alSet {α : Type} (k : Nat) (v : α) : List (Nat × α) → List (Nat × α)
  | [] => []
  | (k', v') :: rest =>
      if k' = k then (k', v) :: rest else (k', v') :: alSet k v rest

/-! ## Order lifecycle manager (`src/execution/order_manager.py`)

The mutable `OrderManager` object is explicit state; each operation returns
the successor state together with the Python return value.  The fresh-id
counter `nextId` models `uuid4` generation (each generated id is fresh), and
`max_positions` is the value of `Settings.max_positions`.  The broker
executor (`self.executor`, wired at construction) is a parameter
`executor : Option (Order → Option Nat)`: `none` models no executor
configured; `some submit` models a broker whose `submit_order` returns
`some broker_order_id` on success and `none` when it rejects (a raised
exception follows the same rejected path with a different reason string). -/

/-- The `OrderManager` state: its two stores and the settings it reads. -/
structure OrderManager where
  orders : List (Nat × Order) := []
  positions : List (Nat × Position) := []
  max_positions : Int := 2
  nextId : Nat := 0
deriving Repr

/-- `OrderManager.open_positions` (insertion-order values of the positions
dict, filtered to `is_open`). -/
def OrderManager.open_positions (m : OrderManager) : List Position :=
  (m.positions.map Prod.snd).filter Position.is_open

/-- `OrderManager.can_open_position`. -/
def OrderManager.can_open_position (m : OrderManager) : Bool × String :=
  if m.max_positions ≤ (m.open_positions.length : Int) then
    (false, "Max positions reached")
  else (true, "")

/-- `OrderManager.create_order_from_suggestion`: refuse (returning `None`,
store untouched) when `can_open_position` fails; otherwise build the order
from the suggestion (the raised `ValueError` on an empty contract list is
caught and also returns `None` with the store untouched) and store it under
its fresh id. -/
def OrderManager.create_order_from_suggestion (m : OrderManager)
    (s : TradeSuggestion) : OrderManager × Option Order :=
  if (m.can_open_position).1 then
    match Order.from_suggestion s m.nextId with
    | none => (m, none)
    | some o =>
        ({ m with orders := m.orders ++ [(o.order_id, o)],
                  nextId := m.nextId + 1 }, some o)
  else (m, none)

/-- `OrderManager.approve_order`: requires the order to exist and be
`PENDING_APPROVAL`; transitions it to `APPROVED`. -/
def OrderManager.approve_order (m : OrderManager) (oid : Nat) :
    OrderManager × Bool :=
  match alGet oid m.orders with
  | none => (m, false)
  | some o =>
      if o.status = OrderStatus.pending_approval then
        let o' := { o with status := OrderStatus.approved }
        ({ m with orders := alSet oid o' m.orders }, true)
      else (m, false)

/-- `OrderManager.reject_order`: requires only that the order exist; moves it
to `CANCELLED` with the reason recorded, from any current status. -/
def OrderManager.reject_order (m : OrderManager) (oid : Nat)
    (reason : String) : OrderManager × Bool :=
  match alGet oid m.orders with
  | none => (m, false)
  | some o =>
      let o' := { o with status := OrderStatus.cancelled,
                         status_reason := some reason }
      ({ m with orders := alSet oid o' m.orders }, true)

/-- `OrderManager.submit_order`: requires the order to exist and be
`APPROVED`.  With no executor configured the order is moved to `REJECTED`
with reason `"No executor"` and the call fails.  Otherwise the broker call
either succeeds (`SUBMITTED`, broker id recorded) or the order is moved to
`REJECTED`. -/
def OrderManager.submit_order (executor : Option (Order → Option Nat))
    (m : OrderManager) (oid : Nat) : OrderManager × Bool :=
  match alGet oid m.orders with
  | none => (m, false)
  | some o =>
      if o.status = OrderStatus.approved then
        match executor with
        | none =>
            let o' := { o with status := OrderStatus.rejected,
                               status_reason := some "No executor" }
            ({ m with orders := alSet oid o' m.orders }, false)
        | some submit =>
            match submit o with
            | some broker_id =>
                let o' := { o with status := OrderStatus.submitted,
                                   broker_order_id := some broker_id }
                ({ m with orders := alSet oid o' m.orders }, true)
            | none =>
                let o' := { o with status := OrderStatus.rejected,
                                   status_reason := some "Broker rejected" }
                ({ m with orders := alSet oid o' m.orders }, false)
      else (m, false)

/-- `OrderManager.record_fill`: add the fill to the order (no status guard);
when the order is then `FILLED` and a BUY, create and store a `Position`
from it (the would-be `ValueError` from `Position.from_filled_order` is not
caught in the source; it would propagate after the order was already
mutated, which the `none` branch mirrors). -/
def OrderManager.record_fill (m : OrderManager) (oid : Nat) (f : Fill) :
    OrderManager × Option Position :=
  match alGet oid m.orders with
  | none => (m, none)
  | some o =>
      let o' := o.add_fill f
      let m' := { m with orders := alSet oid o' m.orders }
      if o'.is_filled && (o'.side == OrderSide.buy) then
        match Position.from_filled_order o' m'.nextId with
        | some p =>
            ({ m' with positions := m'.positions ++ [(p.position_id, p)],
                       nextId := m'.nextId + 1 }, some p)
        | none => (m', none)
      else (m', none)

/-- `OrderManager.close_position`: requires the position to exist; sets its
exit fields and moves it to `CLOSED`. -/
def OrderManager.close_position (m : OrderManager) (pid : Nat)
    (exit_price : ℚ) (exit_oid : Nat) : OrderManager × Bool :=
  match alGet pid m.positions with
  | none => (m, false)
  | some p =>
      let p' := p.close exit_price exit_oid
      ({ m with positions := alSet pid p' m.positions }, true)

/-! ## Position tracker forced exit (`src/execution/position_tracker.py`) -/

/-- The ids, in store order, of the open positions — the snapshot
`positions = self.order_manager.open_positions` taken by
`_execute_auto_exit` before it loops. -/
def openPositionIds (m : OrderManager) : List Nat :=
  (m.positions.filter (fun kp => kp.2.is_open)).map Prod.fst

/-- `PositionTracker.close_position_market`: skip non-open positions;
otherwise create a SELL market order for the position's full quantity
(already `APPROVED`), store it, link it as the position's `exit_order_id`,
mark the position `closing`, and, when an executor is configured, delegate
to `OrderManager.submit_order` (in `main.py` the tracker and the manager
share the one executor). -/
def closePositionMarket (executor : Option (Order → Option Nat))
    (m : OrderManager) (pid : Nat) : OrderManager × Bool :=
  match alGet pid m.positions with
  | none => (m, false)
  | some p =>
      if p.is_open then
        let oid := m.nextId
        let exit_order : Order :=
          { option_code := p.option_code,
            underlying := p.underlying,
            strike := p.strike,
            option_type := p.option_type,
            trade_type := p.trade_type,
            side := OrderSide.sell,
            order_type := OrderType.market,
            quantity := p.quantity,
            status := OrderStatus.approved,
            order_id := oid }
        let p' := { p with exit_order_id := some oid,
                           status := PositionStatus.closing }
        let m' : OrderManager :=
          { m with orders := m.orders ++ [(oid, exit_order)],
                   positions := alSet pid p' m.positions,
                   nextId := oid + 1 }
        match executor with
        | some _ => OrderManager.submit_order executor m' oid
        | none => (m', false)
      else (m, false)

/-- The loop body of `_execute_auto_exit`: close every position of the
snapshot `pids` at market, in order. -/
def closeAll (executor : Option (Order → Option Nat))
    (m : OrderManager) (pids : List Nat) : OrderManager :=
  pids.foldl (fun st pid => (closePositionMarket executor st pid).1) m

/-- `PositionTracker._execute_auto_exit`: snapshot the open positions, then
close each at market. -/
def executeAutoExit (executor : Option (Order → Option Nat))
    (m : OrderManager) : OrderManager :=
  closeAll executor m (openPositionIds m)

/-- One pass of `PositionTracker._monitor_loop`'s forced-exit branch: run
`_execute_auto_exit` exactly when the session phase is `danger_zone` and
auto-exit is enabled. -/
def monitorStepAutoExit (phase : SessionPhase) (auto_exit_enabled : Bool)
    (executor : Option (Order → Option Nat)) (m : OrderManager) :
    OrderManager :=
  if phase = SessionPhase.danger_zone ∧ auto_exit_enabled then
    executeAutoExit executor m
  else m

/-! ## Sequencing helpers and concrete scenarios -/

/-- The cumulative quantity of a list of fills. -/
def fillsQty (fs : List Fill) : Int :=
  (fs.map Fill.quantity).sum

/-- The cumulative cost (price times quantity) of a list of fills. -/
def fillsCost (fs : List Fill) : ℚ :=
  (fs.map (fun f => f.price * (f.quantity : ℚ))).sum

/-- A sequence of `record_fill` calls against one order id. -/
def OrderManager.record_fills (m : OrderManager) (oid : Nat) (fs : List Fill) :
    OrderManager :=
  fs.foldl (fun st f => (st.record_fill oid f).1) m

/-- A concrete one-contract BUY order awaiting fills (id 0, quantity 1),
already submitted to the broker. -/
def exOrder : Order :=
  { option_code := "SPXW", strike := 5000, option_type := OptionType.call,
    trade_type := TradeType.long_call, side := OrderSide.buy, quantity := 1,
    order_id := 0, limit_price := some 5, status := OrderStatus.submitted }

/-- A concrete manager holding only `exOrder`. -/
def exMgr : OrderManager :=
  { orders := [(0, exOrder)], positions := [], max_positions := 2, nextId := 1 }

/-- A fill for the full quantity of `exOrder`. -/
def exFill : Fill := { order_id := 0, quantity := 1, price := 5 }

/-- A fill for twice the quantity of `exOrder`. -/
def exBigFill : Fill := { order_id := 0, quantity := 2, price := 5 }

/-- `exMgr` after the fill that completes `exOrder`. -/
def exMgr1 : OrderManager := (OrderManager.record_fill exMgr 0 exFill).1

/-- `exMgr1` after a further `record_fill` on the already-filled order. -/
def exMgr2 : OrderManager := (OrderManager.record_fill exMgr1 0 exFill).1

/-- A concrete manager holding one order already in the terminal state
`FILLED`. -/
def exMgrFilled : OrderManager :=
  { orders := [(0, { exOrder with status := OrderStatus.filled })],
    positions := [], max_positions := 2, nextId := 1 }

/-- A concrete manager holding one order in state `APPROVED`. -/
def exMgrApproved : OrderManager :=
  { orders := [(0, { exOrder with status := OrderStatus.approved })],
    positions := [], max_positions := 2, nextId := 1 }

/-- A concrete option contract. -/
def exContract : OptionContract :=
  { code := "SPXW5000C", strike_price := 5000, option_type := OptionType.call }

/-- A concrete one-contract trade suggestion. -/
def exSuggestion : TradeSuggestion :=
  { id := 7, trade_type := TradeType.long_call, contracts := [exContract],
    quantity := 1, entry_price := 5, target_price := 7.25, stop_loss := 3.65 }

/-- A concrete open position. -/
def exPosition : Position :=
  { option_code := "SPXW5000C", strike := 5000, option_type := OptionType.call,
    trade_type := TradeType.long_call, quantity := 1, entry_price := 5,
    entry_order_id := 0, position_id := 10 }

/-- A second concrete open position. -/
def exPosition2 : Position :=
  { exPosition with position_id := 11, quantity := 3 }

/-- A concrete manager at its position capacity (two open positions,
`max_positions = 2`). -/
def exMgrFull : OrderManager :=
  { orders := [], positions := [(10, exPosition), (11, exPosition2)],
    max_positions := 2, nextId := 12 }

/-! ## Theorems -/

section AssocListLemmas

variable {α : Type}

theorem alGet_alSet_self (k : Nat) (v : α) (l : List (Nat × α))
    (h : (alGet k l).isSome) : alGet k (alSet k v l) = some v := by
  induction l with
  | nil => simp [alGet] at h
  | cons kv rest ih =>
      by_cases hk : kv.1 = k
      · simp [alGet, alSet, hk]
      · simp only [alGet, alSet, if_neg hk] at h ⊢
        exact ih h

theorem alGet_alSet_ne (k k' : Nat) (v : α) (l : List (Nat × α))
    (h : k' ≠ k) : alGet k' (alSet k v l) = alGet k' l := by
  induction l with
  | nil => rfl
  | cons kv rest ih =>
      by_cases hk : kv.1 = k
      · have hne : kv.1 ≠ k' := fun hc => h (hc ▸ hk)
        simp only [alSet, if_pos hk, alGet, if_neg hne]
      · simp only [alSet, if_neg hk, alGet]
        by_cases hk' : kv.1 = k'
        · simp [if_pos hk']
        · simp only [if_neg hk']
          exact ih

theorem alGet_append_some (k : Nat) (v : α) (l l' : List (Nat × α))
    (h : alGet k l = some v) : alGet k (l ++ l') = some v := by
  induction l with
  | nil => simp [alGet] at h
  | cons kv rest ih =>
      by_cases hk : kv.1 = k
      · simp_all [alGet]
      · simp only [alGet, if_neg hk, List.cons_append] at h ⊢
        exact ih h

theorem alGet_append_none (k : Nat) (l l' : List (Nat × α))
    (h : alGet k l = none) : alGet k (l ++ l') = alGet k l' := by
  induction l with
  | nil => rfl
  | cons kv rest ih =>
      by_cases hk : kv.1 = k
      · simp [alGet, hk] at h
      · simp only [alGet, if_neg hk, List.cons_append] at h ⊢
        exact ih h

theorem alGet_eq_none_of_fresh (k : Nat) (l : List (Nat × α))
    (h : ∀ kv ∈ l, kv.1 ≠ k) : alGet k l = none := by
  induction l with
  | nil => rfl
  | cons kv rest ih =>
      have hk : kv.1 ≠ k := h kv (List.mem_cons_self kv rest)
      simp only [alGet, if_neg hk]
      exact ih fun kv' hkv' => h kv' (List.mem_cons_of_mem kv hkv')

theorem alSet_of_get_none (k : Nat) (v : α) (l : List (Nat × α))
    (h : alGet k l = none) : alSet k v l = l := by
  induction l with
  | nil => rfl
  | cons kv rest ih =>
      by_cases hk : kv.1 = k
      · simp [alGet, hk] at h
      · simp only [alGet, if_neg hk] at h
        simp only [alSet, if_neg hk, ih h]

theorem alSet_append_of_none (k : Nat) (v : α) (l l' : List (Nat × α))
    (h : alGet k l = none) : alSet k v (l ++ l') = l ++ alSet k v l' := by
  induction l with
  | nil => rfl
  | cons kv rest ih =>
      by_cases hk : kv.1 = k
      · simp [alGet, hk] at h
      · simp only [alGet, if_neg hk] at h
        simp [alSet, if_neg hk, ih h]

theorem alGet_mem (k : Nat) (v : α) (l : List (Nat × α))
    (h : alGet k l = some v) : (k, v) ∈ l := by
  induction l with
  | nil => simp [alGet] at h
  | cons kv rest ih =>
      obtain ⟨a, b⟩ := kv
      by_cases hk : a = k
      · subst hk
        simp only [alGet, if_pos rfl] at h
        injection h with h
        subst h
        exact List.mem_cons_self _ _
      · simp only [alGet, if_neg hk] at h
        exact List.mem_cons_of_mem _ (ih h)

theorem alGet_of_mem_nodup (k : Nat) (v : α) (l : List (Nat × α))
    (hnd : (l.map Prod.fst).Nodup) (h : (k, v) ∈ l) : alGet k l = some v := by
  induction l with
  | nil => simp at h
  | cons kv rest ih =>
      simp only [List.map_cons, List.nodup_cons] at hnd
      rcases List.mem_cons.mp h with heq | hmem
      · subst heq
        simp [alGet]
      · have hk : kv.1 ≠ k := by
          intro hk
          exact hnd.1 (hk ▸ (List.mem_map.mpr ⟨(k, v), hmem, rfl⟩))
        simp only [alGet, if_neg hk]
        exact ih hnd.2 hmem

end AssocListLemmas

/-- C4: `session_phase` is a deterministic total function of the Eastern time
of day: the six phases partition the day contiguously in the stated order
with half-open `[start, end)` intervals, and each boundary instant (09:30,
11:00, 13:30, 15:30, 16:00) belongs to the phase that starts there. -/
theorem session_phase_partitions_day (t : Nat) :
    (get_session_phase t = SessionPhase.pre_market ↔ t < marketOpenSec) ∧
    (get_session_phase t = SessionPhase.prime_time ↔
      marketOpenSec ≤ t ∧ t < primeTimeEndSec) ∧
    (get_session_phase t = SessionPhase.lunch_doldrums ↔
      primeTimeEndSec ≤ t ∧ t < lunchEndSec) ∧
    (get_session_phase t = SessionPhase.mid_session ↔
      lunchEndSec ≤ t ∧ t < dangerZoneStartSec) ∧
    (get_session_phase t = SessionPhase.danger_zone ↔
      dangerZoneStartSec ≤ t ∧ t < marketCloseSec) ∧
    (get_session_phase t = SessionPhase.after_hours ↔ marketCloseSec ≤ t) ∧
    get_session_phase marketOpenSec = SessionPhase.prime_time ∧
    get_session_phase primeTimeEndSec = SessionPhase.lunch_doldrums ∧
    get_session_phase lunchEndSec = SessionPhase.mid_session ∧
    get_session_phase dangerZoneStartSec = SessionPhase.danger_zone ∧
    get_session_phase marketCloseSec = SessionPhase.after_hours := by
  refine ⟨?_, ?_, ?_, ?_, ?_, ?_, by decide, by decide, by decide, by decide, by decide⟩ <;>
    · unfold get_session_phase marketOpenSec primeTimeEndSec lunchEndSec
        dangerZoneStartSec marketCloseSec
      split_ifs <;> simp_all <;> omega

/-- C7: for positive account size, risk fraction in `(0,1]` and positive max
loss per contract, `calculate_position_size` returns
`max 1 ⌊account_size * max_risk_per_trade / max_loss⌋` (hence is at least 1),
and for any non-positive max loss it returns exactly 1. -/
theorem position_size_floor_and_guard (a r m : ℚ) :
    (0 < a → 0 < r → r ≤ 1 → 0 < m →
      calculate_position_size r a m = max 1 (Int.floor (a * r / m)) ∧
      1 ≤ calculate_position_size r a m) ∧
    (m ≤ 0 → calculate_position_size r a m = 1) := by
  constructor
  · intro ha hr _ hm
    have hq : (0 : ℚ) ≤ a * r / m := by positivity
    have : calculate_position_size r a m = max 1 (Int.floor (a * r / m)) := by
      unfold calculate_position_size pyInt
      rw [if_neg (not_le.mpr hm), if_neg (not_lt.mpr hq)]
    exact ⟨this, this ▸ le_max_left 1 _⟩
  · intro hm
    unfold calculate_position_size
    rw [if_pos hm]

/-- Witness for C7 at the spec's worked example (`$25k` account, 2% risk,
`$880` max loss, where `⌊500/880⌋ = 0` clamps to 1) and at a negative loss. -/
theorem position_size_floor_and_guard_witness :
    (0 : ℚ) < 25000 ∧ (0 : ℚ) < 1/50 ∧ (1 : ℚ)/50 ≤ 1 ∧ (0 : ℚ) < 880 ∧
    calculate_position_size (1/50) 25000 880 =
      max 1 (Int.floor ((25000 : ℚ) * (1/50) / 880)) ∧
    1 ≤ calculate_position_size (1/50) 25000 880 ∧
    ((-1 : ℚ) ≤ 0 ∧ calculate_position_size (1/50) 25000 (-1) = 1) :=
  ⟨by norm_num, by norm_num, by norm_num, by norm_num,
    ((position_size_floor_and_guard 25000 (1/50) 880).1 (by norm_num) (by norm_num)
      (by norm_num) (by norm_num)).1,
    ((position_size_floor_and_guard 25000 (1/50) 880).1 (by norm_num) (by norm_num)
      (by norm_num) (by norm_num)).2,
    by norm_num,
    (position_size_floor_and_guard 25000 (1/50) (-1)).2 (by norm_num)⟩

/-- C8: `minutes_to_close` and `minutes_to_exit_deadline` are non-negative,
exactly 0 at or after their boundary (16:00, resp. 15:45 Eastern), and
monotonically non-increasing in the time of day. -/
theorem minutes_countdowns_clamped_monotone (t t1 t2 : Nat) (h : t1 ≤ t2) :
    0 ≤ minutes_to_close t ∧ 0 ≤ minutes_to_exit_deadline t ∧
    (marketCloseSec ≤ t → minutes_to_close t = 0) ∧
    (exitDeadlineSec ≤ t → minutes_to_exit_deadline t = 0) ∧
    minutes_to_close t2 ≤ minutes_to_close t1 ∧
    minutes_to_exit_deadline t2 ≤ minutes_to_exit_deadline t1 := by
  refine ⟨Nat.zero_le _, Nat.zero_le _, ?_, ?_, ?_, ?_⟩
  · intro ht; unfold minutes_to_close; rw [if_pos ht]
  · intro ht; unfold minutes_to_exit_deadline; rw [if_pos ht]
  · unfold minutes_to_close
    split_ifs <;> first
      | exact Nat.zero_le _
      | omega
  · unfold minutes_to_exit_deadline
    split_ifs <;> first
      | exact Nat.zero_le _
      | omega

/-- Witness for C8 at 16:00:00 (= 57600 s, the close boundary) and the pair
15:00:00 ≤ 15:30:30. -/
theorem minutes_countdowns_clamped_monotone_witness :
    (54000 : Nat) ≤ 55830 ∧
    (0 ≤ minutes_to_close 57600 ∧ 0 ≤ minutes_to_exit_deadline 57600 ∧
     (marketCloseSec ≤ 57600 → minutes_to_close 57600 = 0) ∧
     (exitDeadlineSec ≤ 57600 → minutes_to_exit_deadline 57600 = 0) ∧
     minutes_to_close 55830 ≤ minutes_to_close 54000 ∧
     minutes_to_exit_deadline 55830 ≤ minutes_to_exit_deadline 54000) :=
  ⟨by decide, minutes_countdowns_clamped_monotone 57600 54000 55830 (by decide)⟩

/-- C10: `calculate_targets` with `is_credit_spread = true` but an absent or
zero `credit_received` falls back to the long-option pair
`(entry * 1.45, entry * 0.73)`; the credit-spread formula is applied exactly
when the credit is present and non-zero. -/
theorem targets_credit_truthiness (entry : ℚ) :
    calculate_targets entry true none = (entry * 1.45, entry * 0.73) ∧
    calculate_targets entry true (some 0) = (entry * 1.45, entry * 0.73) ∧
    ∀ c : ℚ, c ≠ 0 →
      calculate_targets entry true (some c) =
        (entry - c * 0.55, entry + c * 1.25) := by
  refine ⟨rfl, ?_, ?_⟩
  · unfold calculate_targets
    norm_num
  · intro c hc
    show (if c ≠ 0 then (entry - c * 0.55, entry + c * 1.25)
      else (entry * 1.45, entry * 0.73)) = _
    rw [if_pos hc]

/-- Witness for C10 at the spec's worked example `entry = 10`, `credit = 4`
(credit-spread branch gives `(7.8, 15.0)`). -/
theorem targets_credit_truthiness_witness :
    calculate_targets 10 true none = ((10 : ℚ) * 1.45, (10 : ℚ) * 0.73) ∧
    calculate_targets 10 true (some 0) = ((10 : ℚ) * 1.45, (10 : ℚ) * 0.73) ∧
    ((4 : ℚ) ≠ 0 ∧
      calculate_targets 10 true (some 4) = ((10 : ℚ) - 4 * 0.55, (10 : ℚ) + 4 * 1.25)) :=
  ⟨(targets_credit_truthiness 10).1, (targets_credit_truthiness 10).2.1,
    by norm_num, (targets_credit_truthiness 10).2.2 4 (by norm_num)⟩

/-- C9: `submit_order` on an `APPROVED` order with no executor configured
fails, moves the order to the terminal state `REJECTED` with reason
`"No executor"` (positions untouched), and the same order can never be
resubmitted afterwards, whatever executor is then configured. -/
theorem submit_order_no_executor_rejects (m : OrderManager) (oid : Nat)
    (o : Order) (hget : alGet oid m.orders = some o)
    (happr : o.status = OrderStatus.approved) :
    (OrderManager.submit_order none m oid).2 = false ∧
    alGet oid (OrderManager.submit_order none m oid).1.orders =
      some { o with status := OrderStatus.rejected,
                    status_reason := some "No executor" } ∧
    (OrderManager.submit_order none m oid).1.positions = m.positions ∧
    (∀ executor',
      OrderManager.submit_order executor'
          (OrderManager.submit_order none m oid).1 oid =
        ((OrderManager.submit_order none m oid).1, false)) := by
  have hs : (alGet oid m.orders).isSome := by rw [hget]; rfl
  have key : OrderManager.submit_order none m oid =
      ({ m with
          orders := alSet oid
            ({ o with status := OrderStatus.rejected,
                      status_reason := some "No executor" }) m.orders }, false) := by
    simp [OrderManager.submit_order, hget, happr]
  have hget' : alGet oid (OrderManager.submit_order none m oid).1.orders =
      some { o with status := OrderStatus.rejected,
                    status_reason := some "No executor" } := by
    rw [key]
    exact alGet_alSet_self oid _ m.orders hs
  refine ⟨by rw [key], hget', by rw [key], ?_⟩
  intro executor'
  rw [key] at hget' ⊢
  simp [OrderManager.submit_order, hget']

/-- Witness for C9: the concrete approved order 0 of `exMgrApproved`. -/
theorem submit_order_no_executor_rejects_witness :
    (OrderManager.submit_order none exMgrApproved 0).2 = false ∧
    alGet 0 (OrderManager.submit_order none exMgrApproved 0).1.orders =
      some { { exOrder with status := OrderStatus.approved } with
              status := OrderStatus.rejected,
              status_reason := some "No executor" } ∧
    (OrderManager.submit_order none exMgrApproved 0).1.positions =
      exMgrApproved.positions ∧
    (∀ executor',
      OrderManager.submit_order executor'
          (OrderManager.submit_order none exMgrApproved 0).1 0 =
        ((OrderManager.submit_order none exMgrApproved 0).1, false)) :=
  submit_order_no_executor_rejects exMgrApproved 0
    ({ exOrder with status := OrderStatus.approved }) (by decide) (by decide)

/-- C5: `create_order_from_suggestion` at or above the open-position capacity
fails and leaves the manager (both stores) untouched; below capacity it
creates, stores and returns a `PENDING_APPROVAL` BUY limit order derived
from the suggestion's first contract with limit price the suggestion's entry
price. -/
theorem create_order_capacity_guard_and_shape (m : OrderManager)
    (s : TradeSuggestion) :
    (m.max_positions ≤ (m.open_positions.length : Int) →
      m.create_order_from_suggestion s = (m, none)) ∧
    ((m.open_positions.length : Int) < m.max_positions →
      ∀ c rest, s.contracts = c :: rest →
        ∃ o, Order.from_suggestion s m.nextId = some o ∧
          m.create_order_from_suggestion s =
            ({ m with
                orders := m.orders ++ [(m.nextId, o)],
                nextId := m.nextId + 1 }, some o) ∧
          o.side = OrderSide.buy ∧ o.order_type = OrderType.limit ∧
          o.limit_price = some s.entry_price ∧
          o.status = OrderStatus.pending_approval ∧
          o.option_code = c.code ∧ o.strike = c.strike_price ∧
          o.option_type = c.option_type ∧ o.quantity = s.quantity ∧
          o.order_id = m.nextId) := by
  constructor
  · intro hcap
    simp [OrderManager.create_order_from_suggestion,
      OrderManager.can_open_position, hcap]
  · intro hcap c rest hc
    have hcan : (m.can_open_position).1 = true := by
      simp [OrderManager.can_open_position, not_le.mpr hcap]
    have hfs : Order.from_suggestion s m.nextId = some
        { suggestion_id := some s.id, option_code := c.code,
          underlying := c.underlying, strike := c.strike_price,
          option_type := c.option_type, trade_type := s.trade_type,
          side := OrderSide.buy, order_type := OrderType.limit,
          quantity := s.quantity, limit_price := some s.entry_price,
          target_price := some s.target_price,
          stop_loss_price := some s.stop_loss, order_id := m.nextId } := by
      simp [Order.from_suggestion, hc]
    exact ⟨_, hfs,
      by simp [OrderManager.create_order_from_suggestion, hcan, hfs],
      rfl, rfl, rfl, rfl, rfl, rfl, rfl, rfl, rfl⟩

/-- Witness for C5: rejection at the full manager `exMgrFull`, creation at
the empty manager `exMgr` (whose only order is irrelevant here). -/
theorem create_order_capacity_guard_and_shape_witness :
    OrderManager.create_order_from_suggestion exMgrFull exSuggestion =
      (exMgrFull, none) ∧
    (OrderManager.create_order_from_suggestion exMgr exSuggestion).2.map
        Order.status = some OrderStatus.pending_approval ∧
    (OrderManager.create_order_from_suggestion exMgr exSuggestion).2.map
        Order.side = some OrderSide.buy := by
  refine ⟨(create_order_capacity_guard_and_shape exMgrFull exSuggestion).1
    (by decide), ?_, ?_⟩ <;>
  · obtain ⟨o, hfs, heq, hside, htype, hlim, hstat, hrest⟩ :=
      (create_order_capacity_guard_and_shape exMgr exSuggestion).2
        (by decide) exContract [] rfl
    rw [heq]
    simp [hstat, hside]

/-- C1 (code evaluated at the failing input): the fill completing BUY order 0
creates and stores one `Position`; a further `record_fill` on the same,
already `FILLED`, order creates and stores a second `Position`, both
originating from order 0. -/
theorem record_fill_duplicates_position_on_refill :
    (OrderManager.record_fill exMgr 0 exFill).2.isSome = true ∧
    (alGet 0 exMgr1.orders).map Order.status = some OrderStatus.filled ∧
    exMgr1.positions.length = 1 ∧
    (OrderManager.record_fill exMgr1 0 exFill).2.isSome = true ∧
    exMgr2.positions.length = 2 ∧
    exMgr2.positions.map (fun kp => kp.2.entry_order_id) = [0, 0] := by
  decide

/-- C2 counterexample: `reject_order` against the terminal `FILLED` order of
`exMgrFilled` succeeds and rewrites its status to `CANCELLED`, so the
operation does mutate an order in a terminal state. -/
theorem reject_order_mutates_filled_order :
    (OrderManager.reject_order exMgrFilled 0 "User rejected").2 = true ∧
    (alGet 0 (OrderManager.reject_order exMgrFilled 0 "User rejected").1.orders).map
        Order.status = some OrderStatus.cancelled := by
  decide

/-- C2 amended: `approve_order` and `submit_order` against an order in a
terminal state (`FILLED`, `CANCELLED`, `REJECTED`, `EXPIRED`) fail without
mutating anything; but `reject_order` is status-unguarded and moves any
existing order — terminal ones included — to `CANCELLED`, and `record_fill`
likewise applies its fill to the order regardless of the current status. -/
theorem terminal_states_guards (m : OrderManager) (oid : Nat) (o : Order)
    (reason : String) (f : Fill)
    (hget : alGet oid m.orders = some o)
    (hterm : o.status = OrderStatus.filled ∨ o.status = OrderStatus.cancelled ∨
             o.status = OrderStatus.rejected ∨ o.status = OrderStatus.expired) :
    OrderManager.approve_order m oid = (m, false) ∧
    (∀ executor, OrderManager.submit_order executor m oid = (m, false)) ∧
    (OrderManager.reject_order m oid reason).2 = true ∧
    alGet oid (OrderManager.reject_order m oid reason).1.orders =
      some { o with status := OrderStatus.cancelled,
                    status_reason := some reason } ∧
    (OrderManager.record_fill m oid f).1.orders =
      alSet oid (o.add_fill f) m.orders := by
  have hs : (alGet oid m.orders).isSome = true := by rw [hget]; rfl
  have hpend : ¬ o.status = OrderStatus.pending_approval := by
    rcases hterm with h | h | h | h <;> simp [h]
  have happr : ¬ o.status = OrderStatus.approved := by
    rcases hterm with h | h | h | h <;> simp [h]
  refine ⟨?_, ?_, ?_, ?_, ?_⟩
  · simp [OrderManager.approve_order, hget, hpend]
  · intro executor
    simp [OrderManager.submit_order, hget, happr]
  · simp [OrderManager.reject_order, hget]
  · simp only [OrderManager.reject_order, hget]
    exact alGet_alSet_self oid _ m.orders hs
  · simp only [OrderManager.record_fill, hget]
    split
    · split <;> rfl
    · rfl

/-- Witness for C2 at the concrete terminal-state manager `exMgrFilled`. -/
theorem terminal_states_guards_witness :
    OrderManager.approve_order exMgrFilled 0 = (exMgrFilled, false) ∧
    (∀ executor, OrderManager.submit_order executor exMgrFilled 0 =
      (exMgrFilled, false)) ∧
    (OrderManager.reject_order exMgrFilled 0 "stuck").2 = true ∧
    alGet 0 (OrderManager.reject_order exMgrFilled 0 "stuck").1.orders =
      some { { exOrder with status := OrderStatus.filled } with
              status := OrderStatus.cancelled, status_reason := some "stuck" } ∧
    (OrderManager.record_fill exMgrFilled 0 exFill).1.orders =
      alSet 0 (Order.add_fill { exOrder with status := OrderStatus.filled }
        exFill) exMgrFilled.orders :=
  terminal_states_guards exMgrFilled 0
    ({ exOrder with status := OrderStatus.filled }) "stuck" exFill
    (by decide) (Or.inl (by decide))

/-- C3 counterexample: one `record_fill` of quantity 2 against order 0 of
`exMgr` (whose `quantity` is 1) drives `filled_quantity` to 2 > 1
(`remaining_quantity` becomes -1): the invariant
`filled_quantity ≤ quantity` fails. -/
theorem record_fill_overfill_breaks_quantity_bound :
    (alGet 0 (OrderManager.record_fill exMgr 0 exBigFill).1.orders).map
        Order.filled_quantity = some 2 ∧
    (alGet 0 (OrderManager.record_fill exMgr 0 exBigFill).1.orders).map
        Order.quantity = some 1 ∧
    (alGet 0 (OrderManager.record_fill exMgr 0 exBigFill).1.orders).map
        Order.remaining_quantity = some (-1) := by
  decide

theorem record_fill_orders_eq (m : OrderManager) (oid : Nat) (o : Order)
    (f : Fill) (hget : alGet oid m.orders = some o) :
    (OrderManager.record_fill m oid f).1.orders =
      alSet oid (o.add_fill f) m.orders := by
  simp only [OrderManager.record_fill, hget]
  split
  · split <;> rfl
  · rfl

theorem record_fill_order_lookup (m : OrderManager) (oid : Nat) (o : Order)
    (f : Fill) (hget : alGet oid m.orders = some o) :
    alGet oid (OrderManager.record_fill m oid f).1.orders =
      some (o.add_fill f) := by
  rw [record_fill_orders_eq m oid o f hget]
  exact alGet_alSet_self oid _ m.orders (by rw [hget]; rfl)

theorem fillsQty_append (fs : List Fill) (f : Fill) :
    fillsQty (fs ++ [f]) = fillsQty fs + f.quantity := by
  simp [fillsQty]

/-- C3 amended: over any sequence of `record_fill` calls against an order
that starts with no fills, `filled_quantity` always equals the cumulative
fill quantity — so `filled_quantity ≤ quantity` holds whenever the recorded
fills do not overfill the order (the code itself never clamps) — and
`avg_fill_price` is exactly the volume-weighted average of the recorded
fills (`none` while the cumulative quantity is not positive). -/
theorem record_fills_vwap_invariant (m : OrderManager) (oid : Nat) (o : Order)
    (fs : List Fill)
    (hget : alGet oid m.orders = some o)
    (hq : o.filled_quantity = fillsQty o.fills)
    (ha : o.avg_fill_price =
      if 0 < fillsQty o.fills
      then some (fillsCost o.fills / (fillsQty o.fills : ℚ)) else none) :
    ∃ o', alGet oid (OrderManager.record_fills m oid fs).orders = some o' ∧
      o'.fills = o.fills ++ fs ∧
      o'.quantity = o.quantity ∧
      o'.filled_quantity = fillsQty o'.fills ∧
      o'.avg_fill_price =
        (if 0 < fillsQty o'.fills
         then some (fillsCost o'.fills / (fillsQty o'.fills : ℚ)) else none) ∧
      (fillsQty o'.fills ≤ o.quantity → o'.filled_quantity ≤ o.quantity) := by
  induction fs generalizing m o with
  | nil =>
      refine ⟨o, ?_, (List.append_nil o.fills).symm, rfl, hq, ha, fun h => hq ▸ h⟩
      simpa [OrderManager.record_fills] using hget
  | cons f fs ih =>
      have hstep : alGet oid (OrderManager.record_fill m oid f).1.orders =
          some (o.add_fill f) := record_fill_order_lookup m oid o f hget
      have hq' : (o.add_fill f).filled_quantity =
          fillsQty (o.add_fill f).fills := by
        show o.filled_quantity + f.quantity = fillsQty (o.fills ++ [f])
        rw [fillsQty_append, hq]
      have ha' : (o.add_fill f).avg_fill_price =
          if 0 < fillsQty (o.add_fill f).fills
          then some (fillsCost (o.add_fill f).fills /
            (fillsQty (o.add_fill f).fills : ℚ)) else none := by
        show (if 0 < (((o.fills ++ [f]).map Fill.quantity).sum : Int)
          then some (((o.fills ++ [f]).map
              (fun g => g.price * (g.quantity : ℚ))).sum /
            ((((o.fills ++ [f]).map Fill.quantity).sum : Int) : ℚ))
          else none) = _
        rfl
      obtain ⟨o', h1, h2, h3, h4, h5, h6⟩ :=
        ih (OrderManager.record_fill m oid f).1 (o.add_fill f) hstep hq' ha'
      refine ⟨o', h1, ?_, h3, h4, h5, fun h => h6 h⟩
      rw [h2]
      show (o.fills ++ [f]) ++ fs = o.fills ++ f :: fs
      simp

/-- Witness for C3 (amended) at the fresh order 0 of `exMgr` and the
two-fill sequence `[exFill, exBigFill]`. -/
theorem record_fills_vwap_invariant_witness :
    ∃ o', alGet 0 (OrderManager.record_fills exMgr 0
        [exFill, exBigFill]).orders = some o' ∧
      o'.fills = exOrder.fills ++ [exFill, exBigFill] ∧
      o'.quantity = exOrder.quantity ∧
      o'.filled_quantity = fillsQty o'.fills ∧
      o'.avg_fill_price =
        (if 0 < fillsQty o'.fills
         then some (fillsCost o'.fills / (fillsQty o'.fills : ℚ)) else none) ∧
      (fillsQty o'.fills ≤ exOrder.quantity →
        o'.filled_quantity ≤ exOrder.quantity) :=
  record_fills_vwap_invariant exMgr 0 exOrder [exFill, exBigFill]
    (by decide) (by decide) (by decide)

theorem closePositionMarket_spec (exec : Option (Order → Option Nat))
    (m : OrderManager) (pid : Nat) (p : Position)
    (hget : alGet pid m.positions = some p)
    (hopen : p.is_open = true)
    (hfresh : ∀ kv ∈ m.orders, kv.1 < m.nextId) :
    ∃ e : Order,
      e.side = OrderSide.sell ∧ e.order_type = OrderType.market ∧
      e.quantity = p.quantity ∧ e.order_id = m.nextId ∧
      (closePositionMarket exec m pid).1 =
        { m with
            orders := m.orders ++ [(m.nextId, e)],
            positions := alSet pid
              ({ p with exit_order_id := some m.nextId,
                        status := PositionStatus.closing }) m.positions,
            nextId := m.nextId + 1 } := by
  have hnone : alGet m.nextId m.orders = none :=
    alGet_eq_none_of_fresh _ _ (fun kv hkv => Nat.ne_of_lt (hfresh kv hkv))
  let E : Order :=
    { option_code := p.option_code, underlying := p.underlying,
      strike := p.strike, option_type := p.option_type,
      trade_type := p.trade_type, side := OrderSide.sell,
      order_type := OrderType.market, quantity := p.quantity,
      status := OrderStatus.approved, order_id := m.nextId }
  cases exec with
  | none =>
      refine ⟨E, rfl, rfl, rfl, rfl, ?_⟩
      simp [closePositionMarket, hget, hopen]
  | some submit =>
      have hgetExit : ∀ e : Order,
          alGet m.nextId (m.orders ++ [(m.nextId, e)]) = some e := by
        intro e
        rw [alGet_append_none _ _ _ hnone]
        simp [alGet]
      have hsetExit : ∀ e e' : Order,
          alSet m.nextId e' (m.orders ++ [(m.nextId, e)]) =
            m.orders ++ [(m.nextId, e')] := by
        intro e e'
        rw [alSet_append_of_none _ _ _ _ hnone]
        simp [alSet]
      simp only [closePositionMarket, hget, hopen, if_true]
      cases hsub : submit E with
      | none =>
          refine ⟨{ E with status := OrderStatus.rejected,
                           status_reason := some "Broker rejected" },
            rfl, rfl, rfl, rfl, ?_⟩
          simp [OrderManager.submit_order, hgetExit, hsub, hsetExit]
      | some broker_id =>
          refine ⟨{ E with status := OrderStatus.submitted,
                           broker_order_id := some broker_id },
            rfl, rfl, rfl, rfl, ?_⟩
          simp [OrderManager.submit_order, hgetExit, hsub, hsetExit]

theorem openPositionIds_nodup (m : OrderManager)
    (hnd : (m.positions.map Prod.fst).Nodup) : (openPositionIds m).Nodup :=
  hnd.sublist ((List.filter_sublist m.positions).map Prod.fst)

theorem mem_openPositionIds (m : OrderManager) (pid : Nat) (p : Position)
    (hget : alGet pid m.positions = some p) (hopen : p.is_open = true) :
    pid ∈ openPositionIds m := by
  have hmem : (pid, p) ∈ m.positions := alGet_mem _ _ _ hget
  have hmemf : (pid, p) ∈ m.positions.filter (fun kp => kp.2.is_open) :=
    List.mem_filter.mpr ⟨hmem, hopen⟩
  exact List.mem_map.mpr ⟨(pid, p), hmemf, rfl⟩

theorem exists_open_of_mem_openPositionIds (m : OrderManager) (pid : Nat)
    (hnd : (m.positions.map Prod.fst).Nodup) (h : pid ∈ openPositionIds m) :
    ∃ p, alGet pid m.positions = some p ∧ p.is_open = true := by
  obtain ⟨kp, hmemf, hfst⟩ := List.mem_map.mp h
  obtain ⟨hmem, hopen⟩ := List.mem_filter.mp hmemf
  obtain ⟨k, p⟩ := kp
  obtain rfl : k = pid := hfst
  exact ⟨p, alGet_of_mem_nodup _ _ _ hnd hmem, hopen⟩

theorem closeAll_spec (exec : Option (Order → Option Nat)) (pids : List Nat) :
    ∀ (m : OrderManager), pids.Nodup →
      (∀ pid ∈ pids, ∃ p, alGet pid m.positions = some p ∧ p.is_open = true) →
      (∀ kv ∈ m.orders, kv.1 < m.nextId) →
      (closeAll exec m pids).nextId = m.nextId + pids.length ∧
      (∃ new, (closeAll exec m pids).orders = m.orders ++ new ∧
        new.length = pids.length) ∧
      (∀ q, q ∉ pids →
        alGet q (closeAll exec m pids).positions = alGet q m.positions) ∧
      (∀ j, (hj : j < pids.length) → ∃ p e,
        alGet (pids.get ⟨j, hj⟩) m.positions = some p ∧ p.is_open = true ∧
        alGet (pids.get ⟨j, hj⟩) (closeAll exec m pids).positions =
          some ({ p with exit_order_id := some (m.nextId + j),
                         status := PositionStatus.closing }) ∧
        alGet (m.nextId + j) (closeAll exec m pids).orders = some e ∧
        e.side = OrderSide.sell ∧ e.order_type = OrderType.market ∧
        e.quantity = p.quantity) := by
  induction pids with
  | nil =>
      intro m _ _ _
      refine ⟨by simp [closeAll], ⟨[], by simp [closeAll], rfl⟩, ?_, ?_⟩
      · intro q _
        rfl
      · intro j hj
        exact absurd hj (by simp)
  | cons pid pids ih =>
      intro m hnd hmem hfresh
      obtain ⟨p, hget, hopen⟩ := hmem pid (List.mem_cons_self pid pids)
      obtain ⟨e0, hside, htype, hqty, hoid, hstate⟩ :=
        closePositionMarket_spec exec m pid p hget hopen hfresh
      have hnd' := List.nodup_cons.mp hnd
      set M1 : OrderManager :=
        { m with
            orders := m.orders ++ [(m.nextId, e0)],
            positions := alSet pid
              ({ p with exit_order_id := some m.nextId,
                        status := PositionStatus.closing }) m.positions,
            nextId := m.nextId + 1 } with hM1
      have hfold : closeAll exec m (pid :: pids) = closeAll exec M1 pids := by
        show closeAll exec (closePositionMarket exec m pid).1 pids = _
        rw [hstate]
      have hmem' : ∀ pid' ∈ pids,
          ∃ p', alGet pid' M1.positions = some p' ∧ p'.is_open = true := by
        intro pid' hp'
        obtain ⟨p', hget', hopen'⟩ := hmem pid' (List.mem_cons_of_mem pid hp')
        have hne : pid' ≠ pid := fun hEq => hnd'.1 (hEq ▸ hp')
        refine ⟨p', ?_, hopen'⟩
        show alGet pid' (alSet pid _ m.positions) = some p'
        rw [alGet_alSet_ne _ _ _ _ hne]
        exact hget'
      have hfresh' : ∀ kv ∈ M1.orders, kv.1 < M1.nextId := by
        intro kv hkv
        have hkv' : kv ∈ m.orders ++ [(m.nextId, e0)] := hkv
        rcases List.mem_append.mp hkv' with h | h
        · exact Nat.lt_trans (hfresh kv h) (Nat.lt_succ_self _)
        · have : kv = (m.nextId, e0) := by simpa using h
          rw [this]
          exact Nat.lt_succ_self _
      obtain ⟨ihn, ⟨new, ihord, ihlen⟩, ihunch, ihidx⟩ :=
        ih M1 hnd'.2 hmem' hfresh'
      have hM1next : M1.nextId = m.nextId + 1 := rfl
      have hM1ord : M1.orders = m.orders ++ [(m.nextId, e0)] := rfl
      refine ⟨?_, ⟨(m.nextId, e0) :: new, ?_, by simp [ihlen]⟩, ?_, ?_⟩
      · rw [hfold, ihn, hM1next]
        simp [Nat.add_comm, Nat.add_assoc, Nat.add_left_comm]
      · rw [hfold, ihord, hM1ord, List.append_assoc]
        rfl
      · intro q hq
        have hq1 : q ∉ pids := fun h => hq (List.mem_cons_of_mem _ h)
        have hq2 : q ≠ pid := fun h => hq (h ▸ List.mem_cons_self _ _)
        rw [hfold, ihunch q hq1]
        show alGet q (alSet pid _ m.positions) = _
        exact alGet_alSet_ne _ _ _ _ hq2
      · intro j hj
        cases j with
        | zero =>
            refine ⟨p, e0, hget, hopen, ?_, ?_, hside, htype, hqty⟩
            · have hstep0 : alGet pid (closeAll exec m (pid :: pids)).positions =
                  alGet pid M1.positions := by
                rw [hfold]
                exact ihunch pid hnd'.1
              have hstep1 : alGet pid M1.positions =
                  some ({ p with
                          exit_order_id := some m.nextId,
                          status := PositionStatus.closing }) := by
                show alGet pid (alSet pid ({ p with
                    exit_order_id := some m.nextId,
                    status := PositionStatus.closing }) m.positions) = _
                exact alGet_alSet_self _ _ _ (by rw [hget]; rfl)
              exact hstep0.trans hstep1
            · rw [hfold, ihord, hM1ord]
              have hnone : alGet (m.nextId + 0) m.orders = none :=
                alGet_eq_none_of_fresh _ _
                  (fun kv hkv => by
                    have := hfresh kv hkv
                    omega)
              rw [List.append_assoc]
              rw [alGet_append_none _ _ _ hnone]
              simp [alGet]
        | succ j =>
            have hj' : j < pids.length := by
              have := hj
              simp only [List.length_cons] at this
              omega
            obtain ⟨p1, e1, hget1, hopen1, hpos1, hord1, hs1, ht1, hq1⟩ :=
              ihidx j hj'
            have hne1 : pids.get ⟨j, hj'⟩ ≠ pid := fun hEq =>
              hnd'.1 (hEq ▸ List.get_mem pids j hj')
            have hget1m : alGet (pids.get ⟨j, hj'⟩) m.positions = some p1 := by
              have h2 : alGet (pids.get ⟨j, hj'⟩) M1.positions =
                  alGet (pids.get ⟨j, hj'⟩) m.positions :=
                alGet_alSet_ne pid _ _ m.positions hne1
              rw [← h2]
              exact hget1
            have harith : m.nextId + (j + 1) = M1.nextId + j := by
              rw [hM1next]
              omega
            refine ⟨p1, e1, hget1m, hopen1, ?_, ?_, hs1, ht1, hq1⟩
            · rw [hfold]
              have hgoal : alGet (pids.get ⟨j, hj'⟩)
                  (closeAll exec M1 pids).positions =
                  some ({ p1 with
                          exit_order_id := some (m.nextId + (j + 1)),
                          status := PositionStatus.closing }) := by
                rw [harith]
                exact hpos1
              exact hgoal
            · rw [hfold]
              have hgoal2 : alGet (m.nextId + (j + 1))
                  (closeAll exec M1 pids).orders = some e1 := by
                rw [harith]
                exact hord1
              exact hgoal2

/-- C6: one monitor pass in phase `danger_zone` with auto-exit enabled closes
every currently open position: the order store gains exactly one new order
per open position; the position listed at index `j` of the open-position
snapshot gets status `closing` and `exit_order_id` the fresh id
`nextId + j` (distinct per position), under which a SELL MARKET order for
that position's full quantity is stored; positions outside the snapshot are
untouched.  Holds for any configured executor. -/
theorem danger_zone_auto_exit (exec : Option (Order → Option Nat))
    (m : OrderManager)
    (hnd : (m.positions.map Prod.fst).Nodup)
    (hfresh : ∀ kv ∈ m.orders, kv.1 < m.nextId) :
    (∀ pid p, alGet pid m.positions = some p → p.is_open = true →
      pid ∈ openPositionIds m) ∧
    (∃ new,
      (monitorStepAutoExit SessionPhase.danger_zone true exec m).orders =
        m.orders ++ new ∧ new.length = (openPositionIds m).length) ∧
    (∀ j, (hj : j < (openPositionIds m).length) → ∃ p e,
      alGet ((openPositionIds m).get ⟨j, hj⟩) m.positions = some p ∧
      p.is_open = true ∧
      alGet ((openPositionIds m).get ⟨j, hj⟩)
          (monitorStepAutoExit SessionPhase.danger_zone true exec m).positions =
        some ({ p with
                exit_order_id := some (m.nextId + j),
                status := PositionStatus.closing }) ∧
      alGet (m.nextId + j)
          (monitorStepAutoExit SessionPhase.danger_zone true exec m).orders =
        some e ∧
      e.side = OrderSide.sell ∧ e.order_type = OrderType.market ∧
      e.quantity = p.quantity) ∧
    (∀ q, q ∉ openPositionIds m →
      alGet q
          (monitorStepAutoExit SessionPhase.danger_zone true exec m).positions =
        alGet q m.positions) := by
  have hmon : monitorStepAutoExit SessionPhase.danger_zone true exec m =
      closeAll exec m (openPositionIds m) := by
    simp [monitorStepAutoExit, executeAutoExit]
  have hnd' : (openPositionIds m).Nodup := openPositionIds_nodup m hnd
  have hmem : ∀ pid ∈ openPositionIds m,
      ∃ p, alGet pid m.positions = some p ∧ p.is_open = true :=
    fun pid hp => exists_open_of_mem_openPositionIds m pid hnd hp
  obtain ⟨_, ⟨new, hord, hlen⟩, hunch, hidx⟩ :=
    closeAll_spec exec (openPositionIds m) m hnd' hmem hfresh
  refine ⟨fun pid p hget hopen => mem_openPositionIds m pid p hget hopen,
    ⟨new, by rw [hmon]; exact hord, hlen⟩, ?_, ?_⟩
  · intro j hj
    obtain ⟨p, e, h1, h2, h3, h4, h5, h6, h7⟩ := hidx j hj
    exact ⟨p, e, h1, h2, by rw [hmon]; exact h3, by rw [hmon]; exact h4,
      h5, h6, h7⟩
  · intro q hq
    rw [hmon]
    exact hunch q hq

/-- Witness for C6: the concrete manager `exMgrFull` with its two open
positions (ids 10 and 11) and no executor: exactly two new orders are
created, one per open position. -/
theorem danger_zone_auto_exit_witness :
    (∀ pid p, alGet pid exMgrFull.positions = some p → p.is_open = true →
      pid ∈ openPositionIds exMgrFull) ∧
    (∃ new,
      (monitorStepAutoExit SessionPhase.danger_zone true none
          exMgrFull).orders =
        exMgrFull.orders ++ new ∧
      new.length = (openPositionIds exMgrFull).length) ∧
    (∀ j, (hj : j < (openPositionIds exMgrFull).length) → ∃ p e,
      alGet ((openPositionIds exMgrFull).get ⟨j, hj⟩) exMgrFull.positions =
        some p ∧
      p.is_open = true ∧
      alGet ((openPositionIds exMgrFull).get ⟨j, hj⟩)
          (monitorStepAutoExit SessionPhase.danger_zone true none
            exMgrFull).positions =
        some ({ p with
                exit_order_id := some (exMgrFull.nextId + j),
                status := PositionStatus.closing }) ∧
      alGet (exMgrFull.nextId + j)
          (monitorStepAutoExit SessionPhase.danger_zone true none
            exMgrFull).orders =
        some e ∧
      e.side = OrderSide.sell ∧ e.order_type = OrderType.market ∧
      e.quantity = p.quantity) ∧
    (∀ q, q ∉ openPositionIds exMgrFull →
      alGet q
          (monitorStepAutoExit SessionPhase.danger_zone true none
            exMgrFull).positions =
        alGet q exMgrFull.positions) :=
  danger_zone_auto_exit none exMgrFull (by decide) (by decide)
